import Mathlib

/-!
Verification development for the weather-App repository (two Python source
files: `Gemini_ai_call_mem_tool_v2.py` and `tools.py`).

The Python code is shallowly embedded: Python strings are `List Char`,
fallible operations return `Except (List Char) _` (the error payload models
the exception text handed to the enclosing `except` block), and every call
to an external service (the Gemini model, the wttr.in weather endpoint,
`json.loads`, the Twilio client, the APScheduler job store) is a parameter
of the embedding, so each theorem quantifies over every possible behaviour
of that service.  String constants that contain single quotes in the Python
source are modelled without the quote characters; no claim inspects those
characters.
-/

namespace WeatherApp

/-! ### Python string primitives (str.strip, str.lstrip, str.startswith) -/

/-- The whitespace characters recognised by Python `str.strip()` (ASCII part). -/
def isPyWs (c : Char) : Bool :=
  c == ' ' || c == '\t' || c == '\n' || c == '\r' || c == '\x0b' || c == '\x0c'

/-- Python `s.strip()`: drop whitespace from both ends. -/
def pyStrip (l : List Char) : List Char :=
  List.rdropWhile isPyWs (List.dropWhile isPyWs l)

/-- Python `s.startswith(p)` on character lists. -/
def startswith : List Char → List Char → Bool
  | [], _ => true
  | _ :: _, [] => false
  | p :: ps, c :: cs => p == c && startswith ps cs

/-- Python `s.lstrip("+")`: drop leading plus signs. -/
def lstripPlus (l : List Char) : List Char :=
  List.dropWhile (fun c => c == '+') l

/-! ### Character-list constants for tools.py -/

def wpfxChars : List Char := ['w', 'h', 'a', 't', 's', 'a', 'p', 'p', ':']

def plusChars : List Char := ['+']

def wpfxPlusChars : List Char := wpfxChars ++ plusChars

/-! ### Recipient-address normalization from `Tools.send_whatsapp` (tools.py lines 121-127)

```python
to_wh = to_number.strip()
if not to_wh.startswith("whatsapp:"):
    if to_wh.startswith("+"):
        to_wh = "whatsapp:" + to_wh
    else:
        to_wh = "whatsapp:+" + to_wh
```
-/

def normalizeTo (s : List Char) : List Char :=
  if startswith wpfxChars (pyStrip s) then pyStrip s
  else if startswith plusChars (pyStrip s) then wpfxChars ++ pyStrip s
  else wpfxPlusChars ++ pyStrip s

/-- Sender-address normalization from `Tools.send_whatsapp` (tools.py lines 117-119):
`"whatsapp:" + from_wh.lstrip("+")` when the prefix is missing. -/
def normalizeFrom (s : List Char) : List Char :=
  if startswith wpfxChars (pyStrip s) then pyStrip s
  else wpfxChars ++ lstripPlus (pyStrip s)

/-! ### tools.py: the deferred notification dispatcher -/

/-- Python truthiness test for an optional string: `None` and the empty
string are falsy. -/
def optFalsy : Option (List Char) → Bool
  | none => true
  | some s => s.isEmpty

/-- APScheduler trigger kinds used by tools.py: the recurring heartbeat
interval and the one-shot date trigger (fire time: seconds, as a rational,
since the epoch, always UTC). -/
inductive Trigger where
  | interval (seconds : Nat)
  | date (runAt : ℚ)
deriving DecidableEq

/-- A durably stored scheduler job: identifier, trigger, plain argument list. -/
structure Job where
  id : List Char
  trigger : Trigger
  args : List (List Char)
deriving DecidableEq

def hbIdChars : List Char := "heartbeat_job".toList

/-- The recurring 30-second heartbeat job registered by `Tools.__init__`. -/
def heartbeatJob : Job := ⟨hbIdChars, Trigger.interval 30, []⟩

/-- The state of a `Tools` object: Twilio credentials read from the
environment, whether a Twilio client object was constructed, and the
scheduler job store.  `nextJobNum` models the scheduler-assigned fresh
job identifiers. -/
structure ToolsState where
  tw_sid : Option (List Char)
  tw_token : Option (List Char)
  from_whatsapp : Option (List Char)
  clientSome : Bool
  jobs : List Job
  nextJobNum : Nat
deriving DecidableEq

/-- Embedding of `Tools.__init__` (tools.py lines 52-79).  The constructor
reads the three environment variables, builds the Twilio client only when
SID and token are both truthy, starts the scheduler and registers the
heartbeat job.  It contains no `raise` and no credential validation, so it
always returns a constructed object. -/
def toolsInit (sid token fromw : Option (List Char)) : Except (List Char) ToolsState :=
  Except.ok
    { tw_sid := sid, tw_token := token, from_whatsapp := fromw,
      clientSome := !optFalsy sid && !optFalsy token,
      jobs := [heartbeatJob], nextJobNum := 0 }

/-- Provider response for a successful Twilio `messages.create` call. -/
structure TwMsg where
  sid : List Char
  toAddr : List Char
deriving DecidableEq

def twCredErrChars : List Char :=
  "❌ Twilio credentials not configured (TWILIO_ACCOUNT_SID/TWILIO_AUTH_TOKEN/TWILIO_WHATSAPP_FROM).".toList

def twSentPre : List Char := "📩 WhatsApp (Twilio) sent: sid=".toList

def twSentMid : List Char := ", to=".toList

def twErrPre : List Char := "❌ Twilio error: ".toList

/-- Embedding of `Tools.send_whatsapp` (tools.py lines 106-141).  `tw` is the
external `client.messages.create` call, applied to the normalized sender
address, the normalized recipient address and the body (an error value is
the exception caught by the `except` block). -/
def send_whatsapp (st : ToolsState) (to_number message : List Char)
    (tw : List Char → List Char → List Char → Except (List Char) TwMsg) : List Char :=
  if !st.clientSome || optFalsy st.from_whatsapp then twCredErrChars
  else
    match tw (normalizeFrom (st.from_whatsapp.getD [])) (normalizeTo to_number) message with
    | Except.ok m => twSentPre ++ m.sid ++ twSentMid ++ m.toAddr
    | Except.error er => twErrPre ++ er

/-- A Python value passed as `delay_hours`: either convertible by `float(...)`
to a number, or not (e.g. a non-numeric string, `None`). -/
inductive PyArg where
  | num (q : ℚ)
  | strNum (q : ℚ)
  | strBad (s : List Char)
  | noneVal

/-- Python `float(delay_hours)`: `some` the numeric value, `none` when the
conversion raises. -/
def pyFloat : PyArg → Option ℚ
  | PyArg.num q => some q
  | PyArg.strNum q => some q
  | PyArg.strBad _ => none
  | PyArg.noneVal => none

/-- A rendering of the scheduler-assigned job identifier. -/
def natId (n : Nat) : List Char := Nat.toDigits 10 n

/-- A rendering of the `datetime` fire time interpolated into the status
string (the claims never inspect its shape). -/
def fmtTime (q : ℚ) : List Char :=
  (if q < 0 then ['-'] else []) ++ Nat.toDigits 10 q.num.natAbs ++ ['/'] ++ Nat.toDigits 10 q.den

def invalidDelayChars : List Char := "❌ Invalid delay_hours value. Must be a number.".toList

def schedPre : List Char := "⏳ Scheduled WhatsApp message (job_id=".toList

def schedMid : List Char := ") for ".toList

def schedSuf : List Char := " UTC".toList

/-- Embedding of `Tools.schedule_whatsapp` (tools.py lines 144-163).  `now` is
`datetime.utcnow()` in seconds.  A failing `float(delay_hours)` conversion is
caught and returns the validation error string before `add_job` runs. -/
def schedule_whatsapp (st : ToolsState) (now : ℚ) (to_number message : List Char)
    (delay_hours : PyArg) : List Char × ToolsState :=
  match pyFloat delay_hours with
  | none => (invalidDelayChars, st)
  | some q =>
    let run_time := now + q * 3600
    let jid := natId st.nextJobNum
    (schedPre ++ jid ++ schedMid ++ fmtTime run_time ++ schedSuf,
     { st with
        jobs := st.jobs ++ [⟨jid, Trigger.date run_time, [to_number, message]⟩],
        nextJobNum := st.nextJobNum + 1 })

def jobLookupPre : List Char := "No job by the id of ".toList

def jobLookupSuf : List Char := " was found".toList

/-- Embedding of APScheduler `scheduler.remove_job`: removes the job, or
raises `JobLookupError` when the identifier is not in the store. -/
def remove_job (st : ToolsState) (job_id : List Char) : Except (List Char) ToolsState :=
  if st.jobs.any (fun j => j.id == job_id) then
    Except.ok { st with jobs := st.jobs.filter (fun j => !(j.id == job_id)) }
  else
    Except.error (jobLookupPre ++ job_id ++ jobLookupSuf)

def cancelOkPre : List Char := "✅ Removed job ".toList

def cancelErrPre : List Char := "❌ Error removing job ".toList

def cancelErrMid : List Char := ": ".toList

/-- Embedding of `Tools.cancel_job` (tools.py lines 170-175): the
`JobLookupError` is caught and converted into an error string. -/
def cancel_job (st : ToolsState) (job_id : List Char) : List Char × ToolsState :=
  match remove_job st job_id with
  | Except.ok st2 => (cancelOkPre ++ job_id, st2)
  | Except.error e => (cancelErrPre ++ job_id ++ cancelErrMid ++ e, st)

/-! ### Gemini_ai_call_mem_tool_v2.py: the conversational session manager -/

/-- Conversation-turn roles stored in `self.conversation_history`. -/
inductive Role where
  | user
  | assistant
  | tool
deriving DecidableEq

/-- One entry of the in-memory conversation history. -/
structure Msg where
  role : Role
  content : List Char
deriving DecidableEq

/-- A Python value as it can appear as a tool-call argument payload after the
string/None handling: a string, a mapping, or any other object (number,
list, boolean — as produced by `json.loads`). -/
inductive PyVal where
  | pyStr (s : List Char)
  | pyDict (entries : List (List Char × PyVal))
  | pyOther

/-- One part of a Gemini response candidate: either a function call with an
optional argument payload, or plain text. -/
inductive Part where
  | funcCall (name : List Char) (args : Option PyVal)
  | text (s : List Char)

/-- A Gemini model response (the first candidate content). -/
structure ModelResp where
  parts : List Part

/-- Observable events of one `chat_completion_with_tools` call, in program
order: the initial `chat.send_message`, each `self.get_weather` invocation,
each append to `self.conversation_history`, and the follow-up
`chat.send_message`. -/
inductive Event where
  | modelCall
  | weatherCall (city : PyVal)
  | appendHist (m : Msg)
  | followupCall

def isModelCallB : Event → Bool
  | Event.modelCall => true
  | _ => false

def isWeatherCallB : Event → Bool
  | Event.weatherCall _ => true
  | _ => false

def gwChars : List Char := "get_weather".toList

def cityChars : List Char := "city".toList

def unknownChars : List Char := "Unknown".toList

def toolPreChars : List Char := "Tool ".toList

def toolSufChars : List Char := " not implemented.".toList

def geminiErrChars : List Char := "Error making Gemini API call: ".toList

def attrErrChars : List Char := "AttributeError: object has no attribute get".toList

def nlChars : List Char := ['\n']

/-- Python `args.get("city", "Unknown")`-style lookup: succeeds on a mapping,
raises `AttributeError` on any other object. -/
def pyGetD : PyVal → List Char → PyVal → Except (List Char) PyVal
  | PyVal.pyDict es, k, d => Except.ok ((List.lookup k es).getD d)
  | _, _, _ => Except.error attrErrChars

/-- The argument-payload handling of lines 145-152: a string payload is run
through `json.loads` and, when that raises, wrapped as the city itself; a
`None` payload becomes the empty mapping; everything else passes through.
`jsonLoads` is the external JSON parser (`none` = the parse raises). -/
def resolveArgs (jsonLoads : List Char → Option PyVal) : Option PyVal → PyVal
  | some (PyVal.pyStr s) =>
    match jsonLoads s with
    | some v => v
    | none => PyVal.pyDict [(cityChars, PyVal.pyStr s)]
  | none => PyVal.pyDict []
  | some v => v

/-- Concatenated text of the response parts (line 136: `response_text += part.text`). -/
def textOfParts : List Part → List Char
  | [] => []
  | Part.funcCall _ _ :: ps => textOfParts ps
  | Part.text s :: ps => s ++ textOfParts ps

/-- The detected tool calls, in part order (lines 129-134). -/
def callsOfParts : List Part → List (List Char × Option PyVal)
  | [] => []
  | Part.funcCall n a :: ps => (n, a) :: callsOfParts ps
  | Part.text _ :: ps => callsOfParts ps

/-- The tool-dispatch loop of lines 143-163.  Returns the collected tool
result contents (or the exception that aborted the loop) together with the
weather-invocation events, in order.  `w` is the `get_weather` tool, which
never raises (its own body is wrapped in `try`). -/
def runToolCalls (jsonLoads : List Char → Option PyVal) (w : PyVal → List Char) :
    List (List Char × Option PyVal) → Except (List Char) (List (List Char)) × List Event
  | [] => (Except.ok [], [])
  | tc :: rest =>
    if tc.1 = gwChars then
      match pyGetD (resolveArgs jsonLoads tc.2) cityChars (PyVal.pyStr unknownChars) with
      | Except.error e => (Except.error e, [])
      | Except.ok city =>
        let pr := runToolCalls jsonLoads w rest
        ((match pr.1 with
          | Except.ok rs => Except.ok (w city :: rs)
          | Except.error e => Except.error e),
         Event.weatherCall city :: pr.2)
    else
      let pr := runToolCalls jsonLoads w rest
      ((match pr.1 with
        | Except.ok rs => Except.ok ((toolPreChars ++ tc.1 ++ toolSufChars) :: rs)
        | Except.error e => Except.error e),
       pr.2)

/-- Result of one `chat_completion_with_tools` call: the returned string, the
in-memory conversation history afterwards, and the event trace. -/
structure ChatResult where
  output : List Char
  history : List Msg
  trace : List Event

/-- Embedding of `chat_completion_with_tools` (lines 51-195), relative to the
conversation history `hist0` held in `self.conversation_history` on entry.
`resp1` is the outcome of the initial `chat.send_message` and `resp2` the
outcome of the follow-up `chat.send_message` plus `.text` access; an error
value is the exception caught by the enclosing `except`, which returns the
error string.  All history appends (lines 140, 166-170, 184, 190-191) happen
after the initial model call returns. -/
def chat_completion_with_tools (hist0 : List Msg) (user_message : List Char)
    (jsonLoads : List Char → Option PyVal) (w : PyVal → List Char)
    (resp1 : Except (List Char) ModelResp)
    (resp2 : Except (List Char) (List Char)) : ChatResult :=
  match resp1 with
  | Except.error e => ⟨geminiErrChars ++ e, hist0, [Event.modelCall]⟩
  | Except.ok resp =>
    let response_text := textOfParts resp.parts
    match callsOfParts resp.parts with
    | [] =>
      let ai := pyStrip response_text
      ⟨ai, hist0 ++ [⟨Role.user, user_message⟩, ⟨Role.assistant, ai⟩],
       [Event.modelCall, Event.appendHist ⟨Role.user, user_message⟩,
        Event.appendHist ⟨Role.assistant, ai⟩]⟩
    | tc :: rest =>
      let pr := runToolCalls jsonLoads w (tc :: rest)
      match pr.1 with
      | Except.error e =>
        ⟨geminiErrChars ++ e, hist0 ++ [⟨Role.user, user_message⟩],
         Event.modelCall :: Event.appendHist ⟨Role.user, user_message⟩ :: pr.2⟩
      | Except.ok results =>
        let joined := List.intercalate nlChars results
        let amsg : Msg := ⟨Role.assistant, response_text⟩
        let tmsg : Msg := ⟨Role.tool, joined⟩
        match resp2 with
        | Except.error e2 =>
          ⟨geminiErrChars ++ e2, hist0 ++ [⟨Role.user, user_message⟩, amsg, tmsg],
           Event.modelCall :: Event.appendHist ⟨Role.user, user_message⟩ ::
             (pr.2 ++ [Event.appendHist amsg, Event.appendHist tmsg, Event.followupCall])⟩
        | Except.ok t =>
          let ai := pyStrip t
          ⟨ai, hist0 ++ [⟨Role.user, user_message⟩, amsg, tmsg, ⟨Role.assistant, ai⟩],
           Event.modelCall :: Event.appendHist ⟨Role.user, user_message⟩ ::
             (pr.2 ++ [Event.appendHist amsg, Event.appendHist tmsg, Event.followupCall,
                       Event.appendHist ⟨Role.assistant, ai⟩])⟩

/-! ### get_weather (Gemini_ai_call_mem_tool_v2.py lines 26-49) -/

/-- A parsed JSON document returned by the weather endpoint. -/
inductive Json where
  | str (s : List Char)
  | arr (xs : List Json)
  | obj (kvs : List (List Char × Json))

def naChars : List Char := "N/A".toList

def naJson : Json := Json.str naChars

def listFmtChars : List Char := "[...]".toList

def dictFmtChars : List Char := "[dict]".toList

/-- Interpolation of a JSON value into a Python f-string.  All
current-condition fields returned by wttr.in, and the N/A default, are
strings; the non-string renderings are placeholders that no claim inspects. -/
def jsonFmt : Json → List Char
  | Json.str s => s
  | Json.arr _ => listFmtChars
  | Json.obj _ => dictFmtChars

def keyErrPre : List Char := "KeyError: ".toList

def idxErrChars : List Char := "IndexError: list index out of range".toList

def typeErrChars : List Char := "TypeError: value is not subscriptable".toList

/-- Python `data[key]` on a JSON value: raises `KeyError` when the key is
missing, `TypeError` on a non-object. -/
def jKey : Json → List Char → Except (List Char) Json
  | Json.obj kvs, k =>
    match List.lookup k kvs with
    | some v => Except.ok v
    | none => Except.error (keyErrPre ++ k)
  | _, _ => Except.error typeErrChars

/-- Python `data[i]` on a JSON value: raises `IndexError` out of range,
`TypeError` on a non-array. -/
def jAt : Json → Nat → Except (List Char) Json
  | Json.arr xs, n =>
    match xs.get? n with
    | some v => Except.ok v
    | none => Except.error idxErrChars
  | _, _ => Except.error typeErrChars

/-- Python `cur.get(key, default)`: total on an object, raises
`AttributeError` on anything else. -/
def jGetD : Json → List Char → Json → Except (List Char) Json
  | Json.obj kvs, k, d => Except.ok ((List.lookup k kvs).getD d)
  | _, _, _ => Except.error attrErrChars

def ccChars : List Char := "current_condition".toList

def tempChars : List Char := "temp_C".toList

def descChars : List Char := "weatherDesc".toList

def valChars : List Char := "value".toList

def humChars : List Char := "humidity".toList

def windChars : List Char := "windspeedKmph".toList

def feelsChars : List Char := "FeelsLikeC".toList

def wxPre : List Char := "🌤️ Weather in ".toList

def wxC1 : List Char := ": ".toList

def wxC2 : List Char := "°C, ".toList

def wxC3 : List Char := ", Humidity: ".toList

def wxC4 : List Char := "%, Wind: ".toList

def wxC5 : List Char := " km/h, Feels like: ".toList

def wxC6 : List Char := "°C".toList

/-- The f-string of line 46:
`f"🌤️ Weather in {city}: {temp_c}°C, {condition}, Humidity: {humidity}%, Wind: {wind_kmph} km/h, Feels like: {feels_like_c}°C"`. -/
def fmtWeather (city : List Char) (t c h w f : Json) : List Char :=
  wxPre ++ city ++ wxC1 ++ jsonFmt t ++ wxC2 ++ jsonFmt c ++ wxC3 ++ jsonFmt h ++
    wxC4 ++ jsonFmt w ++ wxC5 ++ jsonFmt f ++ wxC6

/-- The body of the `try` block of `get_weather` (lines 31-46), in source
order.  `fetched` is the combined outcome of `requests.get`,
`raise_for_status()` and `response.json()` — an error value is any exception
raised by those external calls. -/
def getWeatherBody (city : List Char) (fetched : Except (List Char) Json) :
    Except (List Char) (List Char) := do
  let data ← fetched
  let ccs ← jKey data ccChars
  let cur ← jAt ccs 0
  let temp ← jGetD cur tempChars naJson
  let wdescs ← jKey cur descChars
  let wdesc0 ← jAt wdescs 0
  let condition ← jKey wdesc0 valChars
  let humidity ← jGetD cur humChars naJson
  let wind ← jGetD cur windChars naJson
  let feels ← jGetD cur feelsChars naJson
  Except.ok (fmtWeather city temp condition humidity wind feels)

def weatherErrPre : List Char := "Error fetching weather for ".toList

def weatherErrMid : List Char := ": ".toList

/-- Embedding of `get_weather` (lines 26-49): any exception in the body is
caught and rendered as the error string of line 49. -/
def get_weather (city : List Char) (fetched : Except (List Char) Json) : List Char :=
  match getWeatherBody city fetched with
  | Except.ok s => s
  | Except.error e => weatherErrPre ++ city ++ weatherErrMid ++ e

/-! ### OpenAIClientWithMemoryAndTools.__init__ (lines 15-24) -/

/-- A constructed conversational client: resolved API key and the (empty)
in-memory conversation history. -/
structure GClient where
  api_key : List Char
  conversation_history : List Msg
deriving DecidableEq

/-- Python `api_key or os.getenv("GEMINI_API_KEY")`. -/
def pyOrStr (a b : Option (List Char)) : Option (List Char) :=
  if optFalsy a then b else a

def gemKeyErrChars : List Char :=
  "GEMENI API key is required. Set GEMINI_API_KEY environment variable or pass api_key parameter.".toList

/-- Embedding of `OpenAIClientWithMemoryAndTools.__init__` (lines 15-24):
raises `ValueError` when both the argument and the environment variable are
falsy, otherwise constructs the client with an empty history. -/
def clientInit (api_key envKey : Option (List Char)) : Except (List Char) GClient :=
  if optFalsy (pyOrStr api_key envKey) then Except.error gemKeyErrChars
  else Except.ok ⟨(pyOrStr api_key envKey).getD [], []⟩

/-- Boolean success test for an `Except` value. -/
def exOk {α : Type} : Except (List Char) α → Bool
  | Except.ok _ => true
  | Except.error _ => false

/-! ### Multi-turn sessions -/

/-- The inputs of one `chat_completion_with_tools` call: the user message
and the behaviour of every external call made during the turn. -/
structure TurnInput where
  user_message : List Char
  jsonLoads : List Char → Option PyVal
  weather : PyVal → List Char
  resp1 : Except (List Char) ModelResp
  resp2 : Except (List Char) (List Char)

/-- Running a sequence of turns, threading the in-memory history. -/
def runTurns : List Msg → List TurnInput → List Msg
  | hist, [] => hist
  | hist, t :: ts =>
    runTurns
      (chat_completion_with_tools hist t.user_message t.jsonLoads t.weather t.resp1 t.resp2).history
      ts

/-- A turn whose initial model call returns and whose tool-argument handling
does not raise. -/
def turnOkB (t : TurnInput) : Bool :=
  match t.resp1 with
  | Except.error _ => false
  | Except.ok resp =>
    match (runToolCalls t.jsonLoads t.weather (callsOfParts resp.parts)).1 with
    | Except.ok _ => true
    | Except.error _ => false

def roleEq : Role → Role → Bool
  | Role.user, Role.user => true
  | Role.assistant, Role.assistant => true
  | Role.tool, Role.tool => true
  | _, _ => false

/-- Number of history entries with the given role. -/
def countRole (r : Role) (h : List Msg) : Nat :=
  (h.filter (fun m => roleEq m.role r)).length

def userMsgOf (t : TurnInput) : Msg := ⟨Role.user, t.user_message⟩

/-! ### The claims under test, stated as written -/

/-- Claim C1 as stated: on every turn the user message is appended to the
in-memory history before the model is invoked (i.e. a user-append event
precedes the first model-call event), and an assistant reply is appended
after the model returns. -/
def claimC1 : Prop :=
  ∀ hist u jl w r1 r2,
    Event.appendHist ⟨Role.user, u⟩ ∈
      ((chat_completion_with_tools hist u jl w r1 r2).trace.takeWhile
        (fun ev => !isModelCallB ev))
    ∧ ∀ resp, r1 = Except.ok resp →
        ∃ m, Event.appendHist ⟨Role.assistant, m⟩ ∈
          (chat_completion_with_tools hist u jl w r1 r2).trace

/-- Claim C2 as stated: both constructors raise when a required credential
is missing. -/
def claimC2 : Prop :=
  (∀ a e, optFalsy a = true → optFalsy e = true → exOk (clientInit a e) = false) ∧
  (∀ sid token fromw, (optFalsy sid || optFalsy token || optFalsy fromw) = true →
    exOk (toolsInit sid token fromw) = false)

/-- The current-condition object wrapped the way the endpoint returns it. -/
def mkCC (kvs : List (List Char × Json)) : Json :=
  Json.obj [(ccChars, Json.arr [Json.obj kvs])]

/-- True when at least one of the five current-condition fields is absent. -/
def anyFieldAbsent (kvs : List (List Char × Json)) : Bool :=
  (List.lookup tempChars kvs).isNone || (List.lookup descChars kvs).isNone ||
  (List.lookup humChars kvs).isNone || (List.lookup windChars kvs).isNone ||
  (List.lookup feelsChars kvs).isNone

/-- Modelled from the spec (section 6): the textual description is the
`weatherDesc[0].value` path, rendering as N/A when absent. -/
def specDesc (kvs : List (List Char × Json)) : Json :=
  match List.lookup descChars kvs with
  | some (Json.arr (Json.obj okvs :: _)) => (List.lookup valChars okvs).getD naJson
  | _ => naJson

/-- Modelled from the spec (section 6): the normal formatted weather string
with "N/A" substituted for each absent current-condition field. -/
def specWeatherRender (city : List Char) (kvs : List (List Char × Json)) : List Char :=
  fmtWeather city ((List.lookup tempChars kvs).getD naJson) (specDesc kvs)
    ((List.lookup humChars kvs).getD naJson) ((List.lookup windChars kvs).getD naJson)
    ((List.lookup feelsChars kvs).getD naJson)

/-- Claim C3 as stated: whenever a current-condition field is absent,
`get_weather` still returns the normal formatted string with N/A
substitutions, never an error string. -/
def claimC3 : Prop :=
  ∀ city kvs, anyFieldAbsent kvs = true →
    get_weather city (Except.ok (mkCC kvs)) = specWeatherRender city kvs

/-- Claim C4 as stated: after any N calls the history holds at least N user
entries and N assistant entries, the user messages in call order. -/
def claimC4 : Prop :=
  ∀ ts : List TurnInput,
    ts.length ≤ countRole Role.user (runTurns [] ts) ∧
    ts.length ≤ countRole Role.assistant (runTurns [] ts) ∧
    List.Sublist (ts.map userMsgOf) (runTurns [] ts)

/-! ### Concrete inputs used by witnesses and counterexamples -/

def hiChars : List Char := "hi".toList

def helloChars : List Char := "hello".toList

def boomChars : List Char := "boom".toList

def oopsChars : List Char := "not json".toList

def parisChars : List Char := "Paris".toList

def clearChars : List Char := "Clear".toList

def t18Chars : List Char := "18".toList

def h40Chars : List Char := "40".toList

def w10Chars : List Char := "10".toList

def f17Chars : List Char := "17".toList

def to0Chars : List Char := "+15551234".toList

def msg0Chars : List Char := "hello there".toList

def nosuchChars : List Char := "nosuch".toList

def waddrChars : List Char := "whatsapp:+15551234".toList

def abcChars : List Char := "abc".toList

/-- A JSON parser behaviour under which every string fails to parse. -/
def jl0 : List Char → Option PyVal := fun _ => none

/-- A weather-tool behaviour returning a fixed string. -/
def w0 : PyVal → List Char := fun _ => naChars

def respHello : ModelResp := ⟨[Part.text helloChars]⟩

def respGW : ModelResp := ⟨[Part.funcCall gwChars none]⟩

def errTurn : TurnInput :=
  ⟨hiChars, jl0, w0, Except.error boomChars, Except.error boomChars⟩

def okTurn : TurnInput :=
  ⟨hiChars, jl0, w0, Except.ok respHello, Except.ok helloChars⟩

def stEx : ToolsState := ⟨none, none, none, false, [heartbeatJob], 0⟩

def twOracle0 : List Char → List Char → List Char → Except (List Char) TwMsg :=
  fun _ _ _ => Except.error boomChars

def valObj : List (List Char × Json) := [(valChars, Json.str clearChars)]

def kvsOnlyDesc : List (List Char × Json) := [(descChars, Json.arr [Json.obj valObj])]

def kvsNoDesc : List (List Char × Json) :=
  [(tempChars, Json.str t18Chars), (humChars, Json.str h40Chars),
   (windChars, Json.str w10Chars), (feelsChars, Json.str f17Chars)]

/-! ### Lemmas about pyStrip and normalizeTo -/

lemma dropWhile_pyStrip (l : List Char) :
    List.dropWhile isPyWs (pyStrip l) = pyStrip l := by
  have hpre : List.IsPrefix (pyStrip l) (List.dropWhile isPyWs l) := by
    unfold pyStrip
    exact List.rdropWhile_prefix isPyWs _
  obtain ⟨u, hu⟩ := hpre
  rcases h : pyStrip l with _ | ⟨a, t⟩
  · rfl
  · have hd : List.dropWhile isPyWs l = a :: (t ++ u) := by
      rw [← hu, h]; simp
    have hlen : 0 < (List.dropWhile isPyWs l).length := by rw [hd]; simp
    have hnot := List.dropWhile_get_zero_not (p := isPyWs) l hlen
    have ha : ¬ isPyWs a = true := by
      simpa [hd] using hnot
    rw [List.dropWhile_cons, if_neg ha]

lemma rdropWhile_pyStrip (l : List Char) :
    List.rdropWhile isPyWs (pyStrip l) = pyStrip l := by
  unfold pyStrip
  exact List.rdropWhile_idempotent isPyWs _

lemma pyStrip_idem (l : List Char) : pyStrip (pyStrip l) = pyStrip l := by
  conv_lhs => rw [pyStrip]
  rw [dropWhile_pyStrip, rdropWhile_pyStrip]

lemma startswith_cons_ne_nil (a : Char) (p t : List Char)
    (h : startswith (a :: p) t = true) : t ≠ [] := by
  cases t with
  | nil => simp [startswith] at h
  | cons c cs => simp

lemma startswith_self_append (p m : List Char) : startswith p (p ++ m) = true := by
  induction p with
  | nil => rfl
  | cons a t ih => simp [startswith, ih]

/-- If a list begins with the non-whitespace character `w`, left-stripping is
the identity. -/
lemma dropWhile_w_append (t : List Char) :
    List.dropWhile isPyWs (wpfxChars ++ t) = wpfxChars ++ t := by
  have hw : isPyWs 'w' = false := by decide
  simp [wpfxChars, List.dropWhile_cons, hw]

lemma rdropWhile_append_of_last (A t : List Char)
    (ht : List.rdropWhile isPyWs t = t) (hne : t ≠ []) :
    List.rdropWhile isPyWs (A ++ t) = A ++ t := by
  rw [List.rdropWhile_eq_self_iff]
  intro hl
  rw [List.getLast_append' A t hne]
  exact (List.rdropWhile_eq_self_iff.mp ht) hne

/-- The output of `normalizeTo` always begins with the channel prefix. -/
lemma normalizeTo_startswith (s : List Char) :
    startswith wpfxChars (normalizeTo s) = true := by
  unfold normalizeTo
  by_cases h1 : startswith wpfxChars (pyStrip s) = true
  · simp [h1]
  · rw [if_neg h1]
    by_cases h2 : startswith plusChars (pyStrip s) = true
    · simp [h2, startswith_self_append]
    · rw [if_neg h2]
      rw [wpfxPlusChars, List.append_assoc]
      exact startswith_self_append _ _

/-- The output of `normalizeTo` is already fully stripped. -/
lemma pyStrip_normalizeTo (s : List Char) :
    pyStrip (normalizeTo s) = normalizeTo s := by
  unfold normalizeTo
  by_cases h1 : startswith wpfxChars (pyStrip s) = true
  · simp only [h1, if_true]
    exact pyStrip_idem s
  · rw [if_neg h1]
    by_cases h2 : startswith plusChars (pyStrip s) = true
    · rw [if_pos h2]
      have hne : pyStrip s ≠ [] := startswith_cons_ne_nil '+' [] (pyStrip s) h2
      rw [pyStrip, dropWhile_w_append]
      exact rdropWhile_append_of_last wpfxChars (pyStrip s) (rdropWhile_pyStrip s) hne
    · rw [if_neg h2]
      by_cases hnil : pyStrip s = []
      · rw [hnil]
        decide
      · rw [wpfxPlusChars, List.append_assoc, pyStrip, dropWhile_w_append]
        have hne : plusChars ++ pyStrip s ≠ [] := by simp [plusChars]
        have hlast : List.rdropWhile isPyWs (plusChars ++ pyStrip s) = plusChars ++ pyStrip s :=
          rdropWhile_append_of_last plusChars (pyStrip s) (rdropWhile_pyStrip s) hnil
        exact rdropWhile_append_of_last wpfxChars (plusChars ++ pyStrip s) hlast hne

/-- A stripped string that already carries the prefix is a fixed point of the
normalization. -/
lemma normalizeTo_fix (m : List Char)
    (hsw : startswith wpfxChars m = true) (hst : pyStrip m = m) :
    normalizeTo m = m := by
  unfold normalizeTo
  rw [hst, if_pos hsw]

/-! ### Claim C8 -/

/-- C8: the recipient-address normalization of `send_whatsapp` is
idempotent, and an already-prefixed, already-stripped address is left
unchanged. -/
theorem C8_normalize_idempotent (s : List Char) :
    normalizeTo (normalizeTo s) = normalizeTo s ∧
    (startswith wpfxChars s = true → pyStrip s = s → normalizeTo s = s) :=
  ⟨normalizeTo_fix (normalizeTo s) (normalizeTo_startswith s) (pyStrip_normalizeTo s),
   fun hsw hst => normalizeTo_fix s hsw hst⟩

theorem C8_witness : normalizeTo waddrChars = waddrChars :=
  (C8_normalize_idempotent waddrChars).2 (by decide) (by decide)

/-! ### Claim C6 -/

/-- C6: a `delay_hours` value that `float(...)` cannot convert makes
`schedule_whatsapp` return the validation error string and leave the job
store (indeed the whole scheduler state) unchanged. -/
theorem C6_invalid_delay (st : ToolsState) (now : ℚ) (to_number message : List Char)
    (delay_hours : PyArg) (h : pyFloat delay_hours = none) :
    schedule_whatsapp st now to_number message delay_hours = (invalidDelayChars, st) := by
  unfold schedule_whatsapp
  rw [h]

theorem C6_witness :
    pyFloat (PyArg.strBad abcChars) = none ∧
    schedule_whatsapp stEx 0 to0Chars msg0Chars (PyArg.strBad abcChars) =
      (invalidDelayChars, stEx) :=
  ⟨rfl, C6_invalid_delay stEx 0 to0Chars msg0Chars (PyArg.strBad abcChars) rfl⟩

/-! ### Claim C7 -/

/-- C7: cancelling a job identifier that is not in the store returns the
error-marked string built from the caught `JobLookupError`, leaves the state
unchanged, and (being a total function into a pair) raises nothing. -/
theorem C7_cancel_missing (st : ToolsState) (job_id : List Char)
    (h : st.jobs.any (fun j => j.id == job_id) = false) :
    cancel_job st job_id =
      (cancelErrPre ++ job_id ++ cancelErrMid ++ (jobLookupPre ++ job_id ++ jobLookupSuf),
       st) := by
  unfold cancel_job remove_job
  rw [h]
  simp

theorem C7_witness :
    (stEx.jobs.any (fun j => j.id == nosuchChars)) = false ∧
    cancel_job stEx nosuchChars =
      (cancelErrPre ++ nosuchChars ++ cancelErrMid ++
        (jobLookupPre ++ nosuchChars ++ jobLookupSuf), stEx) :=
  ⟨by decide, C7_cancel_missing stEx nosuchChars (by decide)⟩

/-! ### Claim C10 -/

/-- C10: when the initial model call raises, `chat_completion_with_tools`
returns the error string and the in-memory history is exactly what it was
before the call. -/
theorem C10_initial_error_no_append (hist : List Msg) (u : List Char)
    (jl : List Char → Option PyVal) (w : PyVal → List Char) (e : List Char)
    (r2 : Except (List Char) (List Char)) :
    (chat_completion_with_tools hist u jl w (Except.error e) r2).output =
        geminiErrChars ++ e ∧
    (chat_completion_with_tools hist u jl w (Except.error e) r2).history = hist :=
  ⟨rfl, rfl⟩

/-! ### Claim C2 -/

/-- Refutation of C2 as stated: `Tools.__init__` with every credential
missing still constructs successfully. -/
theorem C2_counterexample : ¬ claimC2 := by
  intro h
  have h2 := h.2 none none none rfl
  simp [toolsInit, exOk] at h2

/-- C2 amended: the conversational client does raise at construction when
the API key is missing, but the dispatcher never raises at construction —
it builds the object with `client = None` and defers the failure to
`send_whatsapp`, which returns the credentials error string. -/
theorem C2_construction (a e sid token fromw : Option (List Char))
    (to_number message : List Char)
    (tw : List Char → List Char → List Char → Except (List Char) TwMsg) :
    (optFalsy a = true → optFalsy e = true →
      clientInit a e = Except.error gemKeyErrChars) ∧
    exOk (toolsInit sid token fromw) = true ∧
    (optFalsy sid = true → ∀ st, toolsInit sid token fromw = Except.ok st →
      send_whatsapp st to_number message tw = twCredErrChars) := by
  refine ⟨?_, rfl, ?_⟩
  · intro ha he
    simp [clientInit, pyOrStr, ha, he]
  · intro hsid st hst
    simp only [toolsInit, Except.ok.injEq] at hst
    subst hst
    simp [send_whatsapp, hsid]

theorem C2_witness :
    clientInit none none = Except.error gemKeyErrChars ∧
    exOk (toolsInit none none none) = true ∧
    send_whatsapp stEx to0Chars msg0Chars twOracle0 = twCredErrChars :=
  ⟨(C2_construction none none none none none to0Chars msg0Chars twOracle0).1 rfl rfl,
   (C2_construction none none none none none to0Chars msg0Chars twOracle0).2.1,
   (C2_construction none none none none none to0Chars msg0Chars twOracle0).2.2 rfl stEx rfl⟩

/-! ### Claim C5 -/

/-- C5: `chat_completion_with_tools` is a total function (the `except` of
line 194 catches everything raised in the body) and, whenever a remote model
call errors — the initial call, or the follow-up call after tool use — it
returns the error-indicator string `"Error making Gemini API call: ..."` as
a normal return value. -/
theorem C5_fails_closed (hist : List Msg) (u : List Char)
    (jl : List Char → Option PyVal) (w : PyVal → List Char)
    (r2 : Except (List Char) (List Char)) (e : List Char) :
    (chat_completion_with_tools hist u jl w (Except.error e) r2).output =
        geminiErrChars ++ e ∧
    (∀ resp tc rest e2, callsOfParts resp.parts = tc :: rest →
      (∀ rs, (runToolCalls jl w (tc :: rest)).1 = Except.ok rs →
        (chat_completion_with_tools hist u jl w (Except.ok resp)
            (Except.error e2)).output = geminiErrChars ++ e2) ∧
      (∀ e3, (runToolCalls jl w (tc :: rest)).1 = Except.error e3 →
        (chat_completion_with_tools hist u jl w (Except.ok resp)
            (Except.error e2)).output = geminiErrChars ++ e3)) := by
  refine ⟨rfl, ?_⟩
  intro resp tc rest e2 hcalls
  constructor
  · intro rs hok
    simp [chat_completion_with_tools, hcalls, hok]
  · intro e3 herr
    simp [chat_completion_with_tools, hcalls, herr]

theorem C5_witness :
    (chat_completion_with_tools [] hiChars jl0 w0 (Except.ok respGW)
        (Except.error boomChars)).output = geminiErrChars ++ boomChars :=
  ((C5_fails_closed [] hiChars jl0 w0 (Except.error boomChars) boomChars).2
      respGW (gwChars, none) [] boomChars rfl).1
    [w0 (PyVal.pyStr unknownChars)] rfl

/-! ### Claim C1 -/

/-- Refutation of C1 as stated: on a plain-text turn the trace begins with
the model call, so no user-append event precedes it (the appends of lines
140 and 190 run only after `chat.send_message` returns). -/
theorem C1_counterexample : ¬ claimC1 := by
  intro h
  have h1 := (h [] hiChars jl0 w0 (Except.ok respHello) (Except.error boomChars)).1
  simp [chat_completion_with_tools, respHello, callsOfParts, textOfParts,
    List.takeWhile, isModelCallB] at h1

/-- C1 amended: the initial model call is always the first observable event
of a turn; the user message is appended to the in-memory history immediately
after that call returns successfully (not before it), and nothing at all is
appended when the initial call raises. -/
theorem C1_history_order (hist : List Msg) (u : List Char)
    (jl : List Char → Option PyVal) (w : PyVal → List Char)
    (r1 : Except (List Char) ModelResp) (r2 : Except (List Char) (List Char)) :
    (chat_completion_with_tools hist u jl w r1 r2).trace.head? =
        some Event.modelCall ∧
    (∀ e, r1 = Except.error e →
      (chat_completion_with_tools hist u jl w r1 r2).history = hist) ∧
    (∀ resp, r1 = Except.ok resp →
      (chat_completion_with_tools hist u jl w r1 r2).trace.tail.head? =
        some (Event.appendHist ⟨Role.user, u⟩)) := by
  cases r1 with
  | error e =>
    refine ⟨rfl, fun e2 h2 => rfl, fun resp hresp => ?_⟩
    exact absurd hresp (by simp)
  | ok resp =>
    refine ⟨?_, fun e2 h2 => absurd h2 (by simp), fun resp2 hresp => ?_⟩ <;>
    · rcases hc : callsOfParts resp.parts with _ | ⟨tc, rest⟩
      · simp [chat_completion_with_tools, hc]
      · rcases hpr : (runToolCalls jl w (tc :: rest)).1 with e3 | rs
        · simp [chat_completion_with_tools, hc, hpr]
        · rcases r2 with e4 | t <;> simp [chat_completion_with_tools, hc, hpr]

theorem C1_witness :
    (chat_completion_with_tools [] hiChars jl0 w0 (Except.ok respHello)
        (Except.error boomChars)).trace.tail.head? =
      some (Event.appendHist ⟨Role.user, hiChars⟩) :=
  (C1_history_order [] hiChars jl0 w0 (Except.ok respHello)
      (Except.error boomChars)).2.2 respHello rfl

/-! ### Claim C9 -/

/-- C9: a get_weather tool call with a string argument payload that is not
valid JSON uses the string itself as the city, and a `None` payload defaults
the city to "Unknown"; in both cases the turn completes normally and the
weather lookup runs exactly once with that city. -/
theorem C9_malformed_args (hist : List Msg) (u s t : List Char)
    (jl : List Char → Option PyVal) (w : PyVal → List Char) (hjl : jl s = none) :
    ((chat_completion_with_tools hist u jl w
        (Except.ok ⟨[Part.funcCall gwChars (some (PyVal.pyStr s))]⟩)
        (Except.ok t)).output = pyStrip t ∧
      (chat_completion_with_tools hist u jl w
        (Except.ok ⟨[Part.funcCall gwChars (some (PyVal.pyStr s))]⟩)
        (Except.ok t)).trace.filter isWeatherCallB =
          [Event.weatherCall (PyVal.pyStr s)]) ∧
    ((chat_completion_with_tools hist u jl w
        (Except.ok ⟨[Part.funcCall gwChars none]⟩)
        (Except.ok t)).output = pyStrip t ∧
      (chat_completion_with_tools hist u jl w
        (Except.ok ⟨[Part.funcCall gwChars none]⟩)
        (Except.ok t)).trace.filter isWeatherCallB =
          [Event.weatherCall (PyVal.pyStr unknownChars)]) := by
  refine ⟨⟨?_, ?_⟩, ⟨?_, ?_⟩⟩ <;>
    simp [chat_completion_with_tools, callsOfParts, textOfParts, runToolCalls,
      resolveArgs, hjl, pyGetD, List.lookup, isWeatherCallB, List.filter]

theorem C9_witness :
    jl0 oopsChars = none ∧
    ((chat_completion_with_tools [] hiChars jl0 w0
        (Except.ok ⟨[Part.funcCall gwChars (some (PyVal.pyStr oopsChars))]⟩)
        (Except.ok helloChars)).output = pyStrip helloChars ∧
      (chat_completion_with_tools [] hiChars jl0 w0
        (Except.ok ⟨[Part.funcCall gwChars (some (PyVal.pyStr oopsChars))]⟩)
        (Except.ok helloChars)).trace.filter isWeatherCallB =
          [Event.weatherCall (PyVal.pyStr oopsChars)]) :=
  ⟨rfl, (C9_malformed_args [] hiChars oopsChars helloChars jl0 w0 rfl).1⟩

/-! ### Claim C3 -/

/-- Refutation of C3 as stated: a current-condition object with every field
except `weatherDesc` raises `KeyError` at line 41 and `get_weather` returns
the error string, not the N/A-rendered weather string. -/
theorem C3_counterexample : ¬ claimC3 := by
  intro h
  have h1 := h parisChars kvsNoDesc (by decide)
  exact absurd h1 (by decide)

/-- C3 amended: the four fields read with `.get(..., "N/A")` (temperature,
humidity, wind speed, feels-like) do render as N/A when absent, provided the
`weatherDesc[0]["value"]` path resolves; but an absent textual description is
read with direct indexing, so it raises `KeyError` and `get_weather` returns
the error string of line 49 instead. -/
theorem C3_weather_na (city : List Char) (kvs : List (List Char × Json)) :
    (∀ okvs rest2 dv,
      List.lookup descChars kvs = some (Json.arr (Json.obj okvs :: rest2)) →
      List.lookup valChars okvs = some dv →
      get_weather city (Except.ok (mkCC kvs)) =
        fmtWeather city ((List.lookup tempChars kvs).getD naJson) dv
          ((List.lookup humChars kvs).getD naJson)
          ((List.lookup windChars kvs).getD naJson)
          ((List.lookup feelsChars kvs).getD naJson)) ∧
    (List.lookup descChars kvs = none →
      get_weather city (Except.ok (mkCC kvs)) =
        weatherErrPre ++ city ++ weatherErrMid ++ (keyErrPre ++ descChars)) := by
  constructor
  · intro okvs rest2 dv h1 h2
    simp [get_weather, getWeatherBody, mkCC, jKey, jAt, jGetD, h1, h2,
      List.lookup, Bind.bind, Except.bind]
  · intro h1
    simp [get_weather, getWeatherBody, mkCC, jKey, jAt, jGetD, h1,
      List.lookup, Bind.bind, Except.bind]

theorem C3_witness :
    List.lookup descChars kvsOnlyDesc = some (Json.arr (Json.obj valObj :: [])) ∧
    get_weather parisChars (Except.ok (mkCC kvsOnlyDesc)) =
      fmtWeather parisChars naJson (Json.str clearChars) naJson naJson naJson :=
  ⟨rfl,
   (C3_weather_na parisChars kvsOnlyDesc).1 valObj [] (Json.str clearChars) rfl rfl⟩

/-! ### Claim C4 -/

lemma countRole_append (r : Role) (a b : List Msg) :
    countRole r (a ++ b) = countRole r a + countRole r b := by
  simp [countRole, List.filter_append]

/-- Shape of the history after one successful turn: the user message is
appended first, followed by a block that contains at least one assistant
entry and no user entry. -/
lemma chat_turnOk_shape (hist : List Msg) (t : TurnInput) (h : turnOkB t = true) :
    ∃ rest,
      (chat_completion_with_tools hist t.user_message t.jsonLoads t.weather
          t.resp1 t.resp2).history = hist ++ (⟨Role.user, t.user_message⟩ :: rest) ∧
      countRole Role.user rest = 0 ∧ 1 ≤ countRole Role.assistant rest := by
  rcases t with ⟨u, jl, w, r1, r2⟩
  cases r1 with
  | error e => simp [turnOkB] at h
  | ok resp =>
    rcases hc : callsOfParts resp.parts with _ | ⟨tc, rest1⟩
    · refine ⟨[⟨Role.assistant, pyStrip (textOfParts resp.parts)⟩], ?_, ?_, ?_⟩
      · simp [chat_completion_with_tools, hc]
      · simp [countRole, roleEq, List.filter]
      · simp [countRole, roleEq, List.filter]
    · rcases hpr : (runToolCalls jl w (tc :: rest1)).1 with e3 | rs
      · exfalso
        simp [turnOkB, hc, hpr] at h
      · cases r2 with
        | error e2 =>
          refine ⟨[⟨Role.assistant, textOfParts resp.parts⟩,
                   ⟨Role.tool, List.intercalate nlChars rs⟩], ?_, ?_, ?_⟩
          · simp [chat_completion_with_tools, hc, hpr]
          · simp [countRole, roleEq, List.filter]
          · simp [countRole, roleEq, List.filter]
        | ok tfinal =>
          refine ⟨[⟨Role.assistant, textOfParts resp.parts⟩,
                   ⟨Role.tool, List.intercalate nlChars rs⟩,
                   ⟨Role.assistant, pyStrip tfinal⟩], ?_, ?_, ?_⟩
          · simp [chat_completion_with_tools, hc, hpr]
          · simp [countRole, roleEq, List.filter]
          · simp [countRole, roleEq, List.filter]

/-- Shape of the history after a sequence of successful turns. -/
lemma runTurns_shape : ∀ (ts : List TurnInput) (hist : List Msg),
    (∀ t ∈ ts, turnOkB t = true) →
    ∃ suffix, runTurns hist ts = hist ++ suffix ∧
      countRole Role.user suffix = ts.length ∧
      ts.length ≤ countRole Role.assistant suffix ∧
      List.Sublist (ts.map userMsgOf) suffix := by
  intro ts
  induction ts with
  | nil =>
    intro hist hok
    exact ⟨[], by simp [runTurns], by simp [countRole], by simp [countRole], by simp⟩
  | cons t ts ih =>
    intro hist hok
    obtain ⟨rest, hhist, hu, ha⟩ :=
      chat_turnOk_shape hist t (hok t (List.mem_cons_self t ts))
    obtain ⟨suffix, hs, hsu, hsa, hsl⟩ :=
      ih (hist ++ (⟨Role.user, t.user_message⟩ :: rest))
        (fun x hx => hok x (List.mem_cons_of_mem t hx))
    refine ⟨(⟨Role.user, t.user_message⟩ :: rest) ++ suffix, ?_, ?_, ?_, ?_⟩
    · rw [runTurns, hhist, hs, List.append_assoc]
    · rw [countRole_append]
      have h1 : countRole Role.user (⟨Role.user, t.user_message⟩ :: rest) =
          1 + countRole Role.user rest := by
        simp [countRole, List.filter, roleEq, Nat.add_comm]
      rw [h1, hu, hsu]
      simp [Nat.add_comm]
    · rw [countRole_append]
      have h1 : countRole Role.assistant (⟨Role.user, t.user_message⟩ :: rest) =
          countRole Role.assistant rest := by
        simp [countRole, List.filter, roleEq]
      rw [List.length_cons, h1]
      omega
    · rw [List.map_cons, List.cons_append]
      exact List.Sublist.cons₂ _
        (List.sublist_append_of_sublist_right hsl)

/-- Refutation of C4 as stated: a single turn whose initial model call
raises leaves the history empty, so it has no user entry. -/
theorem C4_counterexample : ¬ claimC4 := by
  intro h
  have h1 := (h [errTurn]).1
  simp [runTurns, errTurn, chat_completion_with_tools, countRole] at h1

/-- C4 amended: the stated history invariant holds for every sequence of
turns in which each turn's initial model call returns and its tool-argument
handling does not raise; a turn whose initial model call raises appends
nothing at all (see C10), so the unconditional claim fails. -/
theorem C4_history_growth (ts : List TurnInput) (h : ∀ t ∈ ts, turnOkB t = true) :
    ts.length ≤ countRole Role.user (runTurns [] ts) ∧
    ts.length ≤ countRole Role.assistant (runTurns [] ts) ∧
    List.Sublist (ts.map userMsgOf) (runTurns [] ts) := by
  obtain ⟨suffix, hs, hsu, hsa, hsl⟩ := runTurns_shape ts [] h
  rw [hs, List.nil_append]
  exact ⟨le_of_eq hsu.symm, hsa, hsl⟩

theorem C4_witness :
    (∀ t ∈ [okTurn], turnOkB t = true) ∧
    1 ≤ countRole Role.user (runTurns [] [okTurn]) ∧
    1 ≤ countRole Role.assistant (runTurns [] [okTurn]) ∧
    List.Sublist ([okTurn].map userMsgOf) (runTurns [] [okTurn]) :=
  ⟨by
    intro t ht
    rw [List.mem_singleton] at ht
    subst ht
    rfl,
   C4_history_growth [okTurn] (by
    intro t ht
    rw [List.mem_singleton] at ht
    subst ht
    rfl)⟩

end WeatherApp
